import Mathlib

/-
Shallow embedding of src/manage.py, a command-dispatch scaffold:
a registry built by reflection over the module globals (_get_commands),
a dispatcher (build_parser / main) built on argparse subparsers, and a
proxy command (CommandProxyMixin / Test) that shells out to a child
process via subprocess.run.

Python values that matter to the claims are modelled as records carrying
the attributes the code inspects: the class name, the method resolution
order (a list of class names), the run-method behaviour, and the class
attribute `default` of proxy commands.  Python dicts are modelled as
association lists with insertion-order semantics: inserting an existing
key overwrites its value in place, inserting a new key appends.
-/

namespace Manage

/-- Auxiliary loop of Python str.split with a one-character separator:
walks the characters, cutting a new piece at every separator occurrence;
adjacent separators yield empty pieces. -/
def splitCharAux (c : Char) : List Char → List Char → List String
  | [], acc => [String.mk acc.reverse]
  | x :: xs, acc =>
    if x = c then String.mk acc.reverse :: splitCharAux c xs []
    else splitCharAux c xs (x :: acc)

/-- Python s.split(c) for a single-character separator c, as used by
`self.command.split(' ')`. -/
def pySplit (c : Char) (s : String) : List String := splitCharAux c s.data []

/-- Python s.lower(), as used by `value.__name__.lower()`; the class
names here are ASCII, where lower-casing is per-character. -/
def pyLower (s : String) : String := String.mk (s.data.map Char.toLower)

/-- Behaviour of the `run` method of a command class: either the base
CommandMixin.run, which raises NotImplementedError, or the
CommandProxyMixin.run inherited with a given `command` class attribute. -/
inductive RunBehavior where
  | notImplemented : RunBehavior
  | proxy (command : String) : RunBehavior
deriving DecidableEq, Repr

/-- A module-global Python value as _get_commands sees it: its name
(`__name__`), its method resolution order as a list of class names
(`getattr(value, "__mro__", [])`, empty for non-classes), the behaviour
of its run method, and the `default` class attribute of proxy commands
(none models Python None). -/
structure PyVal where
  name : String
  mro : List String
  run : RunBehavior
  default : Option String
deriving DecidableEq, Repr

/-- Python dict over string keys, as an insertion-ordered association list. -/
abbrev Dict := List (String × PyVal)

/-- Python dict assignment d[k] = v: overwrite the value of an existing
key in place, otherwise append the new binding at the end. -/
def dictInsert (k : String) (v : PyVal) : Dict → Dict
  | [] => [(k, v)]
  | (k', w) :: d => if k' == k then (k, v) :: d else (k', w) :: dictInsert k v d

/-- Python dict lookup d[k], returning none where Python raises KeyError. -/
def dictLookup (k : String) : Dict → Option PyVal
  | [] => none
  | (k', v) :: d => if k' == k then some v else dictLookup k d

/-- The predicate of _get_commands:
`CommandMixin in getattr(value, "__mro__", []) and value is not CommandMixin
and value is not CommandProxyMixin`.  Classes are identified by name,
which is faithful for module-level class declarations. -/
def isCommand (v : PyVal) : Bool :=
  v.mro.contains "CommandMixin" && !(v.name == "CommandMixin")
    && !(v.name == "CommandProxyMixin")

/-- The dict comprehension of _get_commands:
`{value.__name__.lower(): value for value in values if predicate(value)}`.
Iterates the globals in declaration order, inserting each qualifying
class under its lower-cased name; a later duplicate key overwrites the
value of an earlier one, as in a Python dict comprehension. -/
def get_commands (g : List PyVal) : Dict :=
  (g.filter isCommand).foldl (fun d v => dictInsert (pyLower v.name) v d) []

/-- The class CommandMixin as a module-global value. -/
def commandMixin : PyVal :=
  { name := "CommandMixin", mro := ["CommandMixin", "object"],
    run := .notImplemented, default := none }

/-- The class CommandProxyMixin: subclass of CommandMixin, with class
attributes command = "echo" and default = None, and the proxy run method. -/
def commandProxyMixin : PyVal :=
  { name := "CommandProxyMixin",
    mro := ["CommandProxyMixin", "CommandMixin", "object"],
    run := .proxy "echo", default := none }

/-- The class Test: subclass of CommandProxyMixin with
command = "python -m unittest" and default = "discover". -/
def testCommand : PyVal :=
  { name := "Test",
    mro := ["Test", "CommandProxyMixin", "CommandMixin", "object"],
    run := .proxy "python -m unittest", default := some "discover" }

/-- Non-class module globals (imported names and the helper functions),
whose `getattr(value, "__mro__", [])` is the empty list.  The run and
default fields are unused for them. -/
def nonClassGlobal (n : String) : PyVal :=
  { name := n, mro := [], run := .notImplemented, default := none }

/-- The values of globals() of manage.py, in declaration order: the
imported names, the three classes, and the module-level functions. -/
def moduleGlobals : List PyVal :=
  [nonClassGlobal "sys", nonClassGlobal "ArgumentParser",
   nonClassGlobal "Path", nonClassGlobal "run",
   commandMixin, commandProxyMixin, testCommand,
   nonClassGlobal "_get_commands", nonClassGlobal "build_parser",
   nonClassGlobal "main"]

/-- Python " ".join(list). -/
def strJoin (sep : String) : List String → String
  | [] => ""
  | [x] => x
  | x :: xs => x ++ sep ++ strJoin sep xs

/-- The shell command string built by CommandProxyMixin.run:
`cmd = [token for token in self.command.split(' ') if token]`,
`cmd = cmd + args`, `cmd = " ".join(cmd)`.  Splitting on a single space keeps empty tokens
between adjacent spaces, which the comprehension then discards. -/
def proxyCmdString (command : String) (args : List String) : String :=
  strJoin " " ((pySplit ' ' command).filter (fun t => !(t == "")) ++ args)

/-- Errors that the dispatch pipeline can raise: the NotImplementedError
of CommandMixin.run and the KeyError of the registry lookup in main. -/
inductive PyError where
  | notImplementedError : PyError
  | keyError (k : String) : PyError
deriving DecidableEq, Repr

/-- Result of parsing sys.argv with the parser of build_parser.  Usage
errors make argparse print a message and exit the process with code 2;
a successful parse yields the subcommand name and, when the chosen
subcommand declared the positional "args", its parsed value. -/
inductive ParseResult where
  | usageError : ParseResult
  | parsed (subcommand : String) (args : Option (List String)) : ParseResult
deriving DecidableEq, Repr

/-- The default value of the positional "args" of a proxy command when
no token is given on the command line: add_args passes
default=[cls.default] only when `if cls.default:` is truthy (not None
and not the empty string); otherwise the absent nargs-star positional
parses to the empty list. -/
def defaultArgs (v : PyVal) : List String :=
  match v.default with
  | some d => if d == "" then [] else [d]
  | none => []

/-- Parse of the tokens following the subcommand name by that
subcommand's sub-parser.  A proxy command declared
`parser.add_argument("args", nargs="*", ...)`, accepting any number of
tokens and falling back to its default when none are given; a command
keeping the base add_args declared nothing, so leftover tokens are a
usage error and the parsed namespace has no "args" attribute. -/
def parseSubArgs (v : PyVal) (toks : List String) : Option (Option (List String)) :=
  match v.run with
  | .proxy _ => some (some (if toks.isEmpty then defaultArgs v else toks))
  | .notImplemented => if toks.isEmpty then some none else none

/-- The sub-parser table of build_parser: one sub-parser per entry of
_get_commands(), keyed by registry name.  Modelled by the registry dict
itself, since the names and bound commands are exactly its items. -/
def buildParser (g : List PyVal) : Dict := get_commands g

/-- Parsing sys.argv[1:] (positional tokens) against the parser: the
sub-parser argument is required, so an empty argv is a usage error; an
unknown first token is an invalid-choice usage error; otherwise the
chosen subcommand's sub-parser consumes the remaining tokens. -/
def parse_args (parserTable : Dict) (argv : List String) : ParseResult :=
  match argv with
  | [] => .usageError
  | name :: rest =>
    match dictLookup name parserTable with
    | none => .usageError
    | some cmd =>
      match parseSubArgs cmd rest with
      | none => .usageError
      | some a => .parsed name a

/-- The run method invocation `command.run(**args)`.  The base method
raises NotImplementedError; the proxy method builds the shell string,
passes it to subprocess.run with shell=True — the child exit code is
the environment oracle `childExit` applied to that string — and discards
the returned CompletedProcess. -/
def run_method (v : PyVal) (args : Option (List String)) (childExit : String → Int) :
    Except PyError (String × Int) :=
  match v.run with
  | .notImplemented => .error .notImplementedError
  | .proxy c =>
    let s := proxyCmdString c (args.getD [])
    .ok (s, childExit s)

/-- Outcome of one process run of manage.py: a usage-error exit from
argparse (process exit code 2), an uncaught Python exception, or a
normal return from main.  A normal return records the shell command the
child ran with its exit code, when a proxy command ran one, and the
process exit code of manage.py itself. -/
inductive MainResult where
  | usageExit (code : Nat) : MainResult
  | exc (e : PyError) : MainResult
  | finished (shellCmd : String) (childExit : Int) (code : Nat) : MainResult
deriving DecidableEq, Repr

/-- The function main: builds the registry and the parser, parses argv,
pops the subcommand name, looks the command class up in the registry,
instantiates it and calls run with the remaining parsed arguments.
Falling off the end of main exits the process normally with code 0. -/
def main (g : List PyVal) (argv : List String) (childExit : String → Int) : MainResult :=
  let commands := get_commands g
  let parserTable := buildParser g
  match parse_args parserTable argv with
  | .usageError => .usageExit 2
  | .parsed name args =>
    match dictLookup name commands with
    | none => .exc (.keyError name)
    | some klass =>
      match run_method klass args childExit with
      | .error e => .exc e
      | .ok r => .finished r.1 r.2 0

/-- The interpreter state visible to _get_commands: the module globals
it reads, together with the rest of the process state, abstracted by a
type parameter.  Calling _get_commands threads this state explicitly. -/
structure ProcState (σ : Type) where
  globalsList : List PyVal
  rest : σ

/-- The call _get_commands() as a state transformer: it reads
globals().values(), builds the dict, and returns it with the state it
was given. -/
def get_commands_call {σ : Type} (s : ProcState σ) : Dict × ProcState σ :=
  (get_commands s.globalsList, s)

/-- The last element of a list satisfying a predicate, if any: the
element a chain of overwriting dict insertions leaves behind for a key. -/
def lastWith (p : PyVal → Bool) : List PyVal → Option PyVal
  | [] => none
  | v :: vs =>
    match lastWith p vs with
    | some w => some w
    | none => if p v then some v else none

theorem dictLookup_dictInsert (d : Dict) (k k' : String) (v : PyVal) :
    dictLookup k' (dictInsert k v d) = if k' = k then some v else dictLookup k' d := by
  induction d with
  | nil =>
    simp only [dictInsert, dictLookup, beq_iff_eq]
    by_cases h : k = k'
    · simp [h]
    · rw [if_neg h, if_neg (fun hh : k' = k => h hh.symm)]
  | cons p d ih =>
    obtain ⟨k₀, w⟩ := p
    by_cases h₀ : k₀ = k
    · subst h₀
      simp only [dictInsert, dictLookup, beq_iff_eq, if_pos rfl]
      by_cases h : k₀ = k'
      · simp [h]
      · simp only [if_neg h, if_neg (fun hh : k' = k₀ => h hh.symm)]
    · simp only [dictInsert, dictLookup, beq_iff_eq, if_neg h₀, ih]
      by_cases h₁ : k₀ = k' <;> by_cases h₂ : k' = k <;> simp_all

theorem lookup_foldl_insert (l : List PyVal) (d : Dict) (k : String) :
    dictLookup k (l.foldl (fun d v => dictInsert (pyLower v.name) v d) d)
      = match lastWith (fun v => pyLower v.name == k) l with
        | some w => some w
        | none => dictLookup k d := by
  induction l generalizing d with
  | nil => simp [lastWith]
  | cons v l ih =>
    simp only [List.foldl_cons, ih, lastWith]
    cases h : lastWith (fun v => pyLower v.name == k) l with
    | some w => simp
    | none =>
      simp only [dictLookup_dictInsert]
      by_cases hk : k = pyLower v.name
      · simp [hk]
      · have hb : (pyLower v.name == k) = false := by
          simp only [beq_eq_false_iff_ne, ne_eq]
          exact fun hh => hk hh.symm
        simp [hk, hb]

/-- Registry lookup resolves to the last declared qualifying class whose
lower-cased name is the key: in the dict comprehension, later bindings
for the same key overwrite earlier ones. -/
theorem get_commands_lookup (g : List PyVal) (k : String) :
    dictLookup k (get_commands g)
      = lastWith (fun v => pyLower v.name == k) (g.filter isCommand) := by
  unfold get_commands
  rw [lookup_foldl_insert]
  cases h : lastWith (fun v => pyLower v.name == k) (g.filter isCommand) <;>
    simp [dictLookup]

theorem lastWith_eq_some (p : PyVal → Bool) (l : List PyVal) (w : PyVal)
    (h : lastWith p l = some w) : w ∈ l ∧ p w = true := by
  induction l with
  | nil => simp [lastWith] at h
  | cons v l ih =>
    simp only [lastWith] at h
    cases hl : lastWith p l with
    | some u =>
      rw [hl] at h
      obtain ⟨hm, hp⟩ := ih (hl.trans h)
      exact ⟨List.mem_cons_of_mem _ hm, hp⟩
    | none =>
      rw [hl] at h
      by_cases hp : p v = true
      · simp [hp] at h
        exact ⟨by simp [← h], by rw [← h]; exact hp⟩
      · simp [hp] at h

theorem lastWith_isSome_of_mem (p : PyVal → Bool) (l : List PyVal) (v : PyVal)
    (hm : v ∈ l) (hp : p v = true) : (lastWith p l).isSome := by
  induction l with
  | nil => simp at hm
  | cons u l ih =>
    simp only [lastWith]
    cases hl : lastWith p l with
    | some w => simp
    | none =>
      rcases List.mem_cons.mp hm with h | h
      · subst h; simp [hp]
      · have := ih h
        rw [hl] at this
        simp at this

theorem proxyCmdString_unittest (m : String) :
    proxyCmdString "python -m unittest" [m] = "python -m unittest " ++ m := by
  have h1 : (pySplit ' ' "python -m unittest").filter (fun t => !(t == ""))
      = ["python", "-m", "unittest"] := by decide
  unfold proxyCmdString
  rw [h1]
  show ("python" ++ " ") ++ (("-m" ++ " ") ++ (("unittest" ++ " ") ++ m)) = _
  apply String.ext
  simp [String.data_append]

/-- C1.  The claim as stated is false: CommandProxyMixin is a declared
type with CommandMixin in its method resolution order and is not
CommandMixin itself, yet _get_commands leaves it out of the registry,
because the predicate also tests `value is not CommandProxyMixin`. -/
theorem c1_counterexample :
    commandProxyMixin ∈ moduleGlobals
      ∧ commandProxyMixin.mro.contains "CommandMixin" = true
      ∧ commandProxyMixin.name ≠ "CommandMixin"
      ∧ dictLookup (pyLower commandProxyMixin.name) (get_commands moduleGlobals) = none := by
  decide

/-- C1 (amended).  For every declared type with the command capability
other than the two bases CommandMixin and CommandProxyMixin, the
registry maps the lower-cased type name to that type, provided the
lower-cased names of qualifying types are pairwise distinct; conversely
every registry entry arises this way, so exactly the two bases are
excluded. -/
theorem c1_registry_complete (g : List PyVal)
    (hnodup : ((g.filter isCommand).map (fun v => pyLower v.name)).Nodup) :
    (∀ v ∈ g, isCommand v = true →
        dictLookup (pyLower v.name) (get_commands g) = some v)
      ∧ (∀ k w, dictLookup k (get_commands g) = some w →
          w ∈ g ∧ isCommand w = true ∧ k = pyLower w.name) := by
  constructor
  · intro v hv hcmd
    rw [get_commands_lookup]
    have hvf : v ∈ g.filter isCommand := List.mem_filter.mpr ⟨hv, hcmd⟩
    have hsome := lastWith_isSome_of_mem (fun u => pyLower u.name == pyLower v.name)
      (g.filter isCommand) v hvf (by simp)
    obtain ⟨w, hw⟩ := Option.isSome_iff_exists.mp hsome
    obtain ⟨hwf, hwp⟩ := lastWith_eq_some _ _ _ hw
    have : w = v := List.inj_on_of_nodup_map hnodup hwf hvf (by simpa using hwp)
    rw [hw, this]
  · intro k w hw
    rw [get_commands_lookup] at hw
    obtain ⟨hwf, hwp⟩ := lastWith_eq_some _ _ _ hw
    obtain ⟨hwg, hwcmd⟩ := List.mem_filter.mp hwf
    exact ⟨hwg, hwcmd, (beq_iff_eq.mp hwp).symm⟩

/-- C1 witness: at the actual module globals, Test qualifies and is
found under the key test, the lower-casing of its name. -/
theorem c1_registry_complete_witness :
    dictLookup "test" (get_commands moduleGlobals) = some testCommand := by
  have h := (c1_registry_complete moduleGlobals (by decide)).1
    testCommand (by decide) (by decide)
  exact h

/-- C2.  The claim as stated is false: with two distinct command types
Foo and FOO both lower-casing to foo, declared in that order, the
registry maps foo to the later type FOO, not to the first-registered
Foo — a later duplicate key overwrites the earlier one in the dict
comprehension. -/
theorem c2_counterexample :
    dictLookup "foo"
        (get_commands
          [{ name := "Foo", mro := ["Foo", "CommandMixin", "object"],
             run := .proxy "echo", default := none },
           { name := "FOO", mro := ["FOO", "CommandMixin", "object"],
             run := .proxy "echo", default := none }])
      = some { name := "FOO", mro := ["FOO", "CommandMixin", "object"],
               run := .proxy "echo", default := none }
      ∧ ({ name := "FOO", mro := ["FOO", "CommandMixin", "object"],
           run := .proxy "echo", default := none } : PyVal)
        ≠ { name := "Foo", mro := ["Foo", "CommandMixin", "object"],
            run := .proxy "echo", default := none } := by
  decide

/-- C2 (amended).  If several command types lower-case to the same name,
the last-registered (latest-declared) one wins the registry entry and
the earlier ones are silently dropped: for every key, registry lookup
returns exactly the last qualifying declared type whose lower-cased name
is that key. -/
theorem c2_last_registered_wins (g : List PyVal) (k : String) :
    dictLookup k (get_commands g)
      = lastWith (fun v => pyLower v.name == k) (g.filter isCommand) :=
  get_commands_lookup g k

/-- C3.  Running the test subcommand with no argument invokes the
runner with the default argument discover, and running it with a module
argument passes that argument through verbatim: the shell command of
the child is the runner invocation followed by the unchanged module. -/
theorem c3_test_default_and_verbatim (ce : String → Int) (m : String) :
    main moduleGlobals ["test"] ce
        = .finished "python -m unittest discover"
            (ce "python -m unittest discover") 0
      ∧ main moduleGlobals ["test", m] ce
        = .finished ("python -m unittest " ++ m)
            (ce ("python -m unittest " ++ m)) 0 := by
  refine ⟨rfl, ?_⟩
  have h : main moduleGlobals ["test", m] ce
      = .finished (proxyCmdString "python -m unittest" [m])
          (ce (proxyCmdString "python -m unittest" [m])) 0 := rfl
  rw [h, proxyCmdString_unittest]

/-- C4.  The exit code of the child process is not propagated: whenever
main returns normally, the own exit status of the dispatcher is 0, no
matter what the child returned. -/
theorem c4_child_exit_not_propagated (g : List PyVal) (argv : List String)
    (ce : String → Int) (s : String) (c : Int) (e : Nat)
    (h : main g argv ce = .finished s c e) : e = 0 := by
  simp only [main] at h
  split at h
  · simp at h
  · split at h
    · simp at h
    · split at h
      · simp at h
      · simp only [MainResult.finished.injEq] at h
        exact h.2.2.symm

/-- C4 witness: the child exits with code 3, the dispatcher still exits
with 0. -/
theorem c4_witness : (0 : Nat) = 0 :=
  c4_child_exit_not_propagated moduleGlobals ["test"] (fun _ => 3)
    "python -m unittest discover" 3 0 (by decide)

/-- C5.  With no subcommand, or with a subcommand name outside the
registry, argparse raises a usage error and the process exits with the
non-zero code 2; main never reaches any run method. -/
theorem c5_usage_error :
    (∀ ce : String → Int, main moduleGlobals [] ce = .usageExit 2)
      ∧ (∀ (name : String) (rest : List String) (ce : String → Int),
          dictLookup name (get_commands moduleGlobals) = none →
            main moduleGlobals (name :: rest) ce = .usageExit 2)
      ∧ (2 : Nat) ≠ 0 := by
  refine ⟨fun ce => rfl, fun name rest ce h => ?_, by decide⟩
  simp only [main, buildParser, parse_args, h]

/-- C5 witness: an unregistered subcommand name yields the usage-error
exit. -/
theorem c5_witness :
    main moduleGlobals ["frobnicate"] (fun _ => 0) = .usageExit 2 :=
  c5_usage_error.2.1 "frobnicate" [] (fun _ => 0) (by decide)

/-- C6.  The claim as stated is false: the positional "args" of the
test sub-parser is declared with a star arity, so the parser accepts
more than a single argument beyond the subcommand name — here two
tokens are parsed and passed to the runner. -/
theorem c6_counterexample :
    parseSubArgs testCommand ["a", "b"] = some (some ["a", "b"])
      ∧ main moduleGlobals ["test", "a", "b"] (fun _ => 0)
        = .finished "python -m unittest a b" 0 0 := by
  decide

/-- C6 (amended).  The test subcommand declares exactly one positional
argument with star arity: its sub-parser accepts any number of tokens
beyond the subcommand name, and parses to the single-element default
list containing discover when no token is given. -/
theorem c6_star_arity :
    parseSubArgs testCommand [] = some (some ["discover"])
      ∧ ∀ toks : List String, toks ≠ [] →
          parseSubArgs testCommand toks = some (some toks) := by
  refine ⟨by decide, fun toks h => ?_⟩
  simp [parseSubArgs, testCommand, h]

/-- C6 witness: two tokens are accepted and parsed unchanged. -/
theorem c6_star_arity_witness :
    parseSubArgs testCommand ["m1", "m2"] = some (some ["m1", "m2"]) :=
  c6_star_arity.2 ["m1", "m2"] (by decide)

/-- C7.  Every command class that keeps the base run method raises
NotImplementedError on run, for all parsed keyword inputs. -/
theorem c7_base_run_not_implemented (v : PyVal) (h : v.run = .notImplemented)
    (args : Option (List String)) (ce : String → Int) :
    run_method v args ce = .error .notImplementedError := by
  simp [run_method, h]

/-- C7 witness: the base class CommandMixin itself. -/
theorem c7_witness :
    run_method commandMixin none (fun _ => 0) = .error .notImplementedError :=
  c7_base_run_not_implemented commandMixin (by decide) none (fun _ => 0)

/-- C8.  Building the registry has no side effects: the call returns
the state it was given unchanged, and two calls over the same declared
globals return equal mappings. -/
theorem c8_no_side_effects {σ : Type} (s t : ProcState σ) :
    (get_commands_call s).2 = s
      ∧ (s.globalsList = t.globalsList →
          (get_commands_call s).1 = (get_commands_call t).1) :=
  ⟨rfl, fun h => by simp [get_commands_call, h]⟩

/-- C8 witness: at the module globals with a trivial remaining state. -/
theorem c8_witness :
    (get_commands_call (⟨moduleGlobals, ()⟩ : ProcState Unit)).2
        = (⟨moduleGlobals, ()⟩ : ProcState Unit)
      ∧ (get_commands_call (⟨moduleGlobals, ()⟩ : ProcState Unit)).1
        = (get_commands_call (⟨moduleGlobals, ()⟩ : ProcState Unit)).1 :=
  ⟨(c8_no_side_effects ⟨moduleGlobals, ()⟩ ⟨moduleGlobals, ()⟩).1,
   (c8_no_side_effects ⟨moduleGlobals, ()⟩ ⟨moduleGlobals, ()⟩).2 rfl⟩

/-- C9.  The proxy run method builds the shell string by splitting the
command attribute on spaces, discarding empty tokens, appending the
received arguments and joining with single spaces; for Test with one
module argument this yields the runner prefix followed by the module. -/
theorem c9_shell_string :
    (∀ (v : PyVal) (c : String) (args : List String) (ce : String → Int),
        v.run = .proxy c →
          run_method v (some args) ce
            = .ok (strJoin " " ((pySplit ' ' c).filter (fun t => !(t == "")) ++ args),
                ce (strJoin " " ((pySplit ' ' c).filter (fun t => !(t == "")) ++ args))))
      ∧ ∀ m : String,
          proxyCmdString "python -m unittest" [m] = "python -m unittest " ++ m := by
  refine ⟨fun v c args ce h => ?_, proxyCmdString_unittest⟩
  simp [run_method, h, proxyCmdString]

/-- C9 witness: Test with the single argument discover. -/
theorem c9_witness :
    run_method testCommand (some ["discover"]) (fun _ => 0)
      = .ok ("python -m unittest discover", 0) := by
  have h := c9_shell_string.1 testCommand "python -m unittest" ["discover"]
    (fun _ => 0) (by decide)
  rw [h]
  rfl

theorem run_method_error_eq (v : PyVal) (a : Option (List String))
    (ce : String → Int) (e : PyError) (h : run_method v a ce = .error e) :
    e = .notImplementedError := by
  cases hv : v.run <;> simp [run_method, hv] at h
  exact h.symm

/-- C10.  Every subcommand name the parser accepts is a key of the
registry, so the registry lookup in main never raises KeyError: a
successful parse names a key of get_commands, and no run of main ends
in an uncaught KeyError. -/
theorem c10_registry_lookup_safe :
    (∀ (g : List PyVal) (argv : List String) (name : String)
        (args : Option (List String)),
        parse_args (buildParser g) argv = .parsed name args →
          ∃ v, dictLookup name (get_commands g) = some v)
      ∧ ∀ (g : List PyVal) (argv : List String) (ce : String → Int) (k : String),
          main g argv ce ≠ .exc (.keyError k) := by
  constructor
  · intro g argv name args h
    rcases argv with _ | ⟨n₀, rest⟩
    · simp [parse_args] at h
    · simp only [parse_args] at h
      split at h
      · simp at h
      · rename_i cmd hcmd
        split at h
        · simp at h
        · simp only [ParseResult.parsed.injEq] at h
          exact ⟨cmd, h.1 ▸ hcmd⟩
  · intro g argv ce k hmain
    simp only [main] at hmain
    split at hmain
    · simp at hmain
    · rename_i name args hp
      split at hmain
      · rename_i hl
        rcases argv with _ | ⟨n₀, rest⟩
        · simp [parse_args] at hp
        · simp only [parse_args] at hp
          split at hp
          · simp at hp
          · rename_i cmd hcmd
            split at hp
            · simp at hp
            · simp only [ParseResult.parsed.injEq] at hp
              rw [← hp.1] at hl
              rw [show buildParser g = get_commands g from rfl] at hcmd
              rw [hcmd] at hl
              simp at hl
      · rename_i klass hl
        split at hmain
        · rename_i e hr
          have he := run_method_error_eq klass args ce e hr
          rw [he] at hmain
          simp at hmain
        · simp at hmain

/-- C10 witness: the test subcommand parses and its name is a registry
key. -/
theorem c10_witness :
    ∃ v, dictLookup "test" (get_commands moduleGlobals) = some v :=
  c10_registry_lookup_safe.1 moduleGlobals ["test"] "test" (some ["discover"])
    (by decide)

end Manage
